import Mathlib

/-!
Verification of the bilateral rank filter (`skimage/filter/rank/bilateral.py`
and its sliding-histogram engine, modelled from the specification where the
compiled engine is not part of the sources).

The embedding follows the data model of the spec: an image is a 2-D array of
non-negative integers of effective bit depth `B`; a footprint is a boolean
2-D structuring element; a mask is a boolean per-pixel gate.  The sliding
histogram engine maintains, per row, a multiset of qualifying neighbour
intensities, initialised at column 0 and updated incrementally when the
window advances by one column.  The two aggregators (`meanAgg`, `popAgg`)
reduce the histogram restricted to the radiometric interval
[max(0, g-s0), min(max_bin-1, g+s1)].
-/

namespace Bilateral

/-- Modelled from the spec: a 2-D intensity image of dimensions `H×W` with
effective bit depth `B` (supplied by the out-of-scope ingestion collaborator,
which the source delegates to `_handle_input`).  `pix` gives the intensity at
(row, col); it is only meaningful inside bounds. -/
structure Image where
  H : Nat
  W : Nat
  B : Nat
  pix : Int → Int → Nat

/-- `max_bin`: the number of histogram bins, `2^B` for effective bit depth `B`. -/
def maxBin (img : Image) : Nat := 2 ^ img.B

/-- A region-of-interest mask: a boolean per-pixel gate. -/
abbrev Mask := Int → Int → Bool

/-- Modelled from the spec: a boolean structuring element of size `Fh×Fw`. -/
structure Footprint where
  Fh : Nat
  Fw : Nat
  cell : Nat → Nat → Bool

/-- Error taxonomy of the validation step (spec section 7); only the
conditions expressible in this embedding are modelled. -/
inductive FilterError where
  | invalidShift
  | emptyFootprint
deriving DecidableEq

/-- Row-major list of the true cells of a footprint. -/
def footprintCells (fp : Footprint) : List (Nat × Nat) :=
  (List.range fp.Fh).flatMap fun r =>
    ((List.range fp.Fw).filter (fun c => fp.cell r c)).map fun c => (r, c)

/-- Modelled from the spec: the Footprint Resolver (the source delegates it to
the out-of-scope `_handle_input` / compiled engine).  The default center is
`(Fh/2, Fw/2)`; `shift_y` moves the row coordinate and `shift_x` the column
coordinate.  Fails with `InvalidShift` when the shifted center leaves
`[0,Fh)×[0,Fw)`, and with `EmptyFootprint` when the footprint has no true
cell; otherwise emits one offset `(r-center_row, c-center_col)` per true cell
in row-major order. -/
def resolveOffsets (fp : Footprint) (shiftX shiftY : Int) :
    Except FilterError (List (Int × Int)) :=
  let cr : Int := (fp.Fh : Int) / 2 + shiftY
  let cc : Int := (fp.Fw : Int) / 2 + shiftX
  if 0 ≤ cr ∧ cr < (fp.Fh : Int) ∧ 0 ≤ cc ∧ cc < (fp.Fw : Int) then
    if footprintCells fp = [] then
      Except.error FilterError.emptyFootprint
    else
      Except.ok ((footprintCells fp).map fun rc =>
        ((rc.1 : Int) - cr, (rc.2 : Int) - cc))
  else
    Except.error FilterError.invalidShift

/-- A neighbour coordinate qualifies when it is inside image bounds and the
mask is true there. -/
def validNbr (img : Image) (mask : Mask) (y x : Int) : Bool :=
  decide (0 ≤ y) && decide (y < (img.H : Int)) &&
  decide (0 ≤ x) && decide (x < (img.W : Int)) && mask y x

/-- Brute-force rescan: the multiset of intensities
{image(y+dr, x+dc) : (dr,dc) in offsets, (y+dr,x+dc) in bounds, mask true}. -/
def bruteHist (img : Image) (mask : Mask) (offs : List (Int × Int))
    (y x : Int) : Multiset Nat :=
  ((offs.filter fun o => validNbr img mask (y + o.1) (x + o.2)).map
    fun o => img.pix (y + o.1) (x + o.2) : List Nat)

/-- Modelled from the spec: histogram initialisation for column `x = 0` of a
row — apply every offset, incrementing the bin of each qualifying neighbour. -/
def initHist (img : Image) (mask : Mask) (offs : List (Int × Int))
    (y : Int) : Multiset Nat :=
  offs.foldl
    (fun h o =>
      if validNbr img mask (y + o.1) (0 + o.2) then
        img.pix (y + o.1) (0 + o.2) ::ₘ h
      else h)
    0

/-- Modelled from the spec: the per-offset incremental update when the window
advances from column `x` to `x+1` — the neighbour that exits the window is
removed from the histogram, the neighbour that enters is added. -/
def slideBody (img : Image) (mask : Mask) (y x : Int)
    (h : Multiset Nat) (o : Int × Int) : Multiset Nat :=
  let h1 :=
    if validNbr img mask (y + o.1) (x + o.2) then
      h.erase (img.pix (y + o.1) (x + o.2))
    else h
  if validNbr img mask (y + o.1) (x + 1 + o.2) then
    img.pix (y + o.1) (x + 1 + o.2) ::ₘ h1
  else h1

/-- One column advance of the sliding histogram engine. -/
def slideStep (img : Image) (mask : Mask) (offs : List (Int × Int))
    (y x : Int) (h : Multiset Nat) : Multiset Nat :=
  offs.foldl (slideBody img mask y x) h

/-- Modelled from the spec: the histogram the sliding engine holds after
processing column `x` of row `y` — built at column 0 from scratch and then
maintained incrementally across the row. -/
def histAt (img : Image) (mask : Mask) (offs : List (Int × Int))
    (y : Int) : Nat → Multiset Nat
  | 0 => initHist img mask offs y
  | x + 1 => slideStep img mask offs y (x : Int) (histAt img mask offs y x)

/-- Lower end of the effective radiometric interval: `max(0, g-s0)` (natural
subtraction realises the clamp at 0). -/
def intervalLo (g s0 : Nat) : Nat := g - s0

/-- Upper end of the effective radiometric interval: `min(max_bin-1, g+s1)`. -/
def intervalHi (mb g s1 : Nat) : Nat := min (mb - 1) (g + s1)

/-- Membership of an intensity in the effective radiometric interval. -/
def inInterval (mb g s0 s1 v : Nat) : Bool :=
  decide (intervalLo g s0 ≤ v) && decide (v ≤ intervalHi mb g s1)

/-- Modelled from the spec: `bilateral_pop` aggregator — the summed count of
histogram entries inside the interval. -/
def popAgg (mb s0 s1 : Nat) (h : Multiset Nat) (g : Nat) : Nat :=
  (h.filter fun v => inInterval mb g s0 s1 v = true).card

/-- Modelled from the spec: `bilateral_mean` aggregator — population-weighted
average of the histogram entries inside the interval, truncated to the integer
representation; the center's own intensity `g` when the restricted population
is zero. -/
def meanAgg (mb s0 s1 : Nat) (h : Multiset Nat) (g : Nat) : Nat :=
  let q := h.filter fun v => inInterval mb g s0 s1 v = true
  if q.card = 0 then g else q.sum / q.card

/-- A center pixel is active (processed and written) when it is inside the
image and the mask is true there. -/
def activeAt (img : Image) (mask : Mask) (y x : Nat) : Bool :=
  decide (y < img.H) && decide (x < img.W) && mask (y : Int) (x : Int)

/-- Modelled from the spec: the shared `_apply` pipeline — validate the
footprint and shift once, then for every active pixel aggregate the engine's
histogram with the given aggregator; inactive pixels keep the value of the
caller-supplied output buffer `out0`. -/
def applyEngine (agg : Multiset Nat → Nat → Nat) (img : Image)
    (fp : Footprint) (out0 : Nat → Nat → Nat) (mask : Mask)
    (shiftX shiftY : Int) : Except FilterError (Nat → Nat → Nat) :=
  (resolveOffsets fp shiftX shiftY).map fun offs => fun y x =>
    if activeAt img mask y x then
      agg (histAt img mask offs (y : Int) x) (img.pix (y : Int) (x : Int))
    else out0 y x

/-- Python's implicit coercion of a boolean to an integer, used because the
source declares the defaults `shift_x=False, shift_y=False`. -/
def pyIntOfBool (b : Bool) : Int := if b then 1 else 0

/-- `bilateral_mean`: mean of the bilateral neighbourhood at every pixel. -/
def bilateral_mean (img : Image) (fp : Footprint) (out0 : Nat → Nat → Nat)
    (mask : Mask) (shiftX shiftY : Int) (s0 s1 : Nat) :
    Except FilterError (Nat → Nat → Nat) :=
  applyEngine (meanAgg (maxBin img) s0 s1) img fp out0 mask shiftX shiftY

/-- `bilateral_pop`: population of the bilateral neighbourhood at every pixel. -/
def bilateral_pop (img : Image) (fp : Footprint) (out0 : Nat → Nat → Nat)
    (mask : Mask) (shiftX shiftY : Int) (s0 s1 : Nat) :
    Except FilterError (Nat → Nat → Nat) :=
  applyEngine (popAgg (maxBin img) s0 s1) img fp out0 mask shiftX shiftY

/-- `bilateral_mean` as called with all optional arguments omitted:
`shift_x=False, shift_y=False, s0=10, s1=10` (source lines 43-44). -/
def bilateral_mean_defaults (img : Image) (fp : Footprint)
    (out0 : Nat → Nat → Nat) (mask : Mask) :
    Except FilterError (Nat → Nat → Nat) :=
  bilateral_mean img fp out0 mask (pyIntOfBool false) (pyIntOfBool false) 10 10

/-- `bilateral_pop` as called with all optional arguments omitted:
`shift_x=False, shift_y=False, s0=10, s1=10` (source lines 102-103). -/
def bilateral_pop_defaults (img : Image) (fp : Footprint)
    (out0 : Nat → Nat → Nat) (mask : Mask) :
    Except FilterError (Nat → Nat → Nat) :=
  bilateral_pop img fp out0 mask (pyIntOfBool false) (pyIntOfBool false) 10 10

/-- Read one pixel of a filter result (0 when the call failed). -/
def outAt (r : Except FilterError (Nat → Nat → Nat)) (y x : Nat) : Nat :=
  match r with
  | Except.ok f => f y x
  | Except.error _ => 0

/-- The 5×5 image of the reference example: a 3×3 block of 255 inside a 0
border, uint16 values realised in 8 effective bits. -/
def img5 : Image :=
  ⟨5, 5, 8, fun y x => if 1 ≤ y ∧ y ≤ 3 ∧ 1 ≤ x ∧ x ≤ 3 then 255 else 0⟩

/-- The 3×3 all-true square footprint of the reference example. -/
def fp3 : Footprint := ⟨3, 3, fun _ _ => true⟩

/-- The all-true mask (the default when the caller passes none). -/
def maskAll : Mask := fun _ _ => true

/-- A filter result read back as a 5×5 grid of values. -/
def outGrid5 (r : Except FilterError (Nat → Nat → Nat)) : List (List Nat) :=
  (List.range 5).map fun y => (List.range 5).map fun x => outAt r y x

/-- The offsets of the 3×3 square footprint with no shift. -/
def offs3 : List (Int × Int) :=
  [(-1, -1), (-1, 0), (-1, 1), (0, -1), (0, 0), (0, 1), (1, -1), (1, 0), (1, 1)]

/-- A 1×3 footprint whose center cell is false (horizontal neighbours only). -/
def fpH : Footprint := ⟨1, 3, fun _ c => decide (c ≠ 1)⟩

/-- The offsets of `fpH` with no shift. -/
def offsH : List (Int × Int) := [(0, -1), (0, 1)]

/-! ### Engine correctness: the incremental histogram equals the rescan -/

lemma bruteHist_nil (img : Image) (mask : Mask) (y x : Int) :
    bruteHist img mask [] y x = 0 := rfl

lemma bruteHist_cons_pos (img : Image) (mask : Mask) {o : Int × Int}
    (offs : List (Int × Int)) {y x : Int}
    (h : validNbr img mask (y + o.1) (x + o.2) = true) :
    bruteHist img mask (o :: offs) y x
      = img.pix (y + o.1) (x + o.2) ::ₘ bruteHist img mask offs y x := by
  simp [bruteHist, List.filter_cons, h]

lemma bruteHist_cons_neg (img : Image) (mask : Mask) {o : Int × Int}
    (offs : List (Int × Int)) {y x : Int}
    (h : ¬ validNbr img mask (y + o.1) (x + o.2) = true) :
    bruteHist img mask (o :: offs) y x = bruteHist img mask offs y x := by
  simp [bruteHist, List.filter_cons, h]

lemma init_foldl (img : Image) (mask : Mask) (y : Int) :
    ∀ (l : List (Int × Int)) (acc : Multiset Nat),
      l.foldl
        (fun h o =>
          if validNbr img mask (y + o.1) (0 + o.2) then
            img.pix (y + o.1) (0 + o.2) ::ₘ h
          else h)
        acc
      = bruteHist img mask l y 0 + acc := by
  intro l
  induction l with
  | nil => intro acc; simp [bruteHist_nil]
  | cons o rest ih =>
    intro acc
    rw [List.foldl_cons]
    by_cases hv : validNbr img mask (y + o.1) (0 + o.2) = true
    · rw [if_pos hv, ih, bruteHist_cons_pos img mask rest hv,
        Multiset.cons_add, Multiset.add_cons]
    · rw [if_neg hv, ih, bruteHist_cons_neg img mask rest hv]

lemma initHist_eq (img : Image) (mask : Mask) (offs : List (Int × Int))
    (y : Int) :
    initHist img mask offs y = bruteHist img mask offs y 0 := by
  rw [initHist, init_foldl, add_zero]

lemma slide_foldl (img : Image) (mask : Mask) (y x : Int) :
    ∀ (l : List (Int × Int)) (m : Multiset Nat),
      l.foldl (slideBody img mask y x) (bruteHist img mask l y x + m)
        = bruteHist img mask l y (x + 1) + m := by
  intro l
  induction l with
  | nil => intro m; simp [bruteHist_nil]
  | cons o rest ih =>
    intro m
    rw [List.foldl_cons]
    by_cases hx : validNbr img mask (y + o.1) (x + o.2) = true
    · by_cases hx1 : validNbr img mask (y + o.1) (x + 1 + o.2) = true
      · have hstep :
            slideBody img mask y x (bruteHist img mask (o :: rest) y x + m) o
              = bruteHist img mask rest y x
                  + (img.pix (y + o.1) (x + 1 + o.2) ::ₘ m) := by
          simp only [slideBody, hx, hx1, if_pos,
            bruteHist_cons_pos img mask rest hx, Multiset.cons_add,
            Multiset.erase_cons_head, Multiset.add_cons, if_true]
        rw [hstep, ih, bruteHist_cons_pos img mask rest hx1,
          Multiset.cons_add, Multiset.add_cons]
      · have hstep :
            slideBody img mask y x (bruteHist img mask (o :: rest) y x + m) o
              = bruteHist img mask rest y x + m := by
          simp only [slideBody, hx, hx1, if_pos, if_false,
            bruteHist_cons_pos img mask rest hx, Multiset.cons_add,
            Multiset.erase_cons_head, if_true, Bool.false_eq_true]
        rw [hstep, ih, bruteHist_cons_neg img mask rest hx1]
    · by_cases hx1 : validNbr img mask (y + o.1) (x + 1 + o.2) = true
      · have hstep :
            slideBody img mask y x (bruteHist img mask (o :: rest) y x + m) o
              = bruteHist img mask rest y x
                  + (img.pix (y + o.1) (x + 1 + o.2) ::ₘ m) := by
          simp only [slideBody, hx, hx1, if_true, if_false,
            bruteHist_cons_neg img mask rest hx, Multiset.add_cons,
            Bool.false_eq_true]
        rw [hstep, ih, bruteHist_cons_pos img mask rest hx1,
          Multiset.cons_add, Multiset.add_cons]
      · have hstep :
            slideBody img mask y x (bruteHist img mask (o :: rest) y x + m) o
              = bruteHist img mask rest y x + m := by
          simp only [slideBody, hx, hx1, if_false,
            bruteHist_cons_neg img mask rest hx, Bool.false_eq_true]
        rw [hstep, ih, bruteHist_cons_neg img mask rest hx1]

lemma histAt_eq_bruteHist (img : Image) (mask : Mask)
    (offs : List (Int × Int)) (y : Int) (x : Nat) :
    histAt img mask offs y x = bruteHist img mask offs y (x : Int) := by
  induction x with
  | zero => simpa only [histAt, Nat.cast_zero] using initHist_eq img mask offs y
  | succ x ih =>
    rw [histAt, slideStep, ih]
    have h0 := slide_foldl img mask y (x : Int) offs 0
    rw [add_zero, add_zero] at h0
    rw [h0]
    norm_cast

/-! ### Pipeline helper lemmas -/

lemma except_map_error {ε α β : Type} (g : α → β) (r : Except ε α) (e : ε) :
    Except.map g r = Except.error e ↔ r = Except.error e := by
  cases r <;> simp [Except.map]

lemma applyEngine_ok (agg : Multiset Nat → Nat → Nat) (img : Image)
    (fp : Footprint) (out0 : Nat → Nat → Nat) (mask : Mask) (sx sy : Int)
    (offs : List (Int × Int)) (hres : resolveOffsets fp sx sy = Except.ok offs) :
    applyEngine agg img fp out0 mask sx sy = Except.ok (fun y x =>
      if activeAt img mask y x then
        agg (histAt img mask offs (y : Int) x) (img.pix (y : Int) (x : Int))
      else out0 y x) := by
  rw [applyEngine, hres]
  rfl

lemma applyEngine_ok_resolve {agg : Multiset Nat → Nat → Nat} {img : Image}
    {fp : Footprint} {out0 : Nat → Nat → Nat} {mask : Mask} {sx sy : Int}
    {f : Nat → Nat → Nat}
    (h : applyEngine agg img fp out0 mask sx sy = Except.ok f) :
    ∃ offs, resolveOffsets fp sx sy = Except.ok offs := by
  rw [applyEngine] at h
  cases hr : resolveOffsets fp sx sy with
  | error e => rw [hr] at h; simp [Except.map] at h
  | ok offs => exact ⟨offs, rfl⟩

lemma applyEngine_pixel {agg : Multiset Nat → Nat → Nat} {img : Image}
    {fp : Footprint} {out0 : Nat → Nat → Nat} {mask : Mask} {sx sy : Int}
    {f : Nat → Nat → Nat} {offs : List (Int × Int)} (y x : Nat)
    (hres : resolveOffsets fp sx sy = Except.ok offs)
    (h : applyEngine agg img fp out0 mask sx sy = Except.ok f) :
    f y x = if activeAt img mask y x then
        agg (histAt img mask offs (y : Int) x) (img.pix (y : Int) (x : Int))
      else out0 y x := by
  rw [applyEngine_ok agg img fp out0 mask sx sy offs hres] at h
  have h' := Except.ok.inj h
  rw [← h']

/-! ### Claim theorems -/

/-- C1: for every image, footprint and mask, and for every emitted (active)
pixel, the histogram maintained incrementally by the sliding histogram engine
equals exactly the multiset of intensities obtained by a brute-force rescan of
all offsets at that pixel. -/
theorem incremental_hist_eq_rescan (img : Image) (fp : Footprint) (mask : Mask)
    (shiftX shiftY : Int) (offs : List (Int × Int)) (y x : Nat)
    (_hres : resolveOffsets fp shiftX shiftY = Except.ok offs)
    (_hact : activeAt img mask y x = true) :
    histAt img mask offs (y : Int) x
      = bruteHist img mask offs (y : Int) (x : Int) :=
  histAt_eq_bruteHist img mask offs (y : Int) x

theorem incremental_hist_eq_rescan_witness :
    histAt img5 maskAll offs3 ((2 : Nat) : Int) 2
      = bruteHist img5 maskAll offs3 ((2 : Nat) : Int) ((2 : Nat) : Int) :=
  incremental_hist_eq_rescan img5 fp3 maskAll 0 0 offs3 2 2
    (by rfl) (by decide)

/-- C2: on the reference example — a 5×5 image with a 3×3 block of 255 inside
a 0 border, a 3×3 all-true footprint, and `s0 = s1 = 10` — `bilateral_pop`
returns exactly the documented grid, including the truncation of the window at
the image boundaries. -/
theorem bilateral_pop_reference_example :
    outGrid5 (bilateral_pop img5 fp3 (fun _ _ => 0) maskAll 0 0 10 10)
      = [[3, 4, 3, 4, 3], [4, 4, 6, 4, 4], [3, 6, 9, 6, 3],
         [4, 4, 6, 4, 4], [3, 4, 3, 4, 3]] := by
  decide

/-- C3: at every active pixel whose histogram restricted to the interval
[max(0,g-s0), min(max_bin-1,g+s1)] has zero total population, `bilateral_mean`
outputs the center pixel's own intensity `g` (no division by zero occurs). -/
theorem bilateral_mean_zero_population_identity
    (img : Image) (fp : Footprint) (out0 : Nat → Nat → Nat) (mask : Mask)
    (shiftX shiftY : Int) (s0 s1 : Nat) (offs : List (Int × Int))
    (f : Nat → Nat → Nat) (y x : Nat)
    (hres : resolveOffsets fp shiftX shiftY = Except.ok offs)
    (hf : bilateral_mean img fp out0 mask shiftX shiftY s0 s1 = Except.ok f)
    (hact : activeAt img mask y x = true)
    (hzero : popAgg (maxBin img) s0 s1 (histAt img mask offs (y : Int) x)
        (img.pix (y : Int) (x : Int)) = 0) :
    f y x = img.pix (y : Int) (x : Int) := by
  rw [bilateral_mean] at hf
  rw [applyEngine_pixel y x hres hf, if_pos hact]
  simp only [popAgg] at hzero
  simp only [meanAgg]
  rw [if_pos hzero]

theorem bilateral_mean_zero_population_identity_witness :
    resolveOffsets fpH 0 0 = Except.ok offsH ∧
    bilateral_mean img5 fpH (fun _ _ => 0) maskAll 0 0 0 0
        = Except.ok (fun y x =>
            if activeAt img5 maskAll y x then
              meanAgg (maxBin img5) 0 0 (histAt img5 maskAll offsH (y : Int) x)
                (img5.pix (y : Int) (x : Int))
            else 0) ∧
    activeAt img5 maskAll 2 0 = true ∧
    popAgg (maxBin img5) 0 0 (histAt img5 maskAll offsH ((2 : Nat) : Int) 0)
        (img5.pix ((2 : Nat) : Int) ((0 : Nat) : Int)) = 0 ∧
    (fun y x =>
        if activeAt img5 maskAll y x then
          meanAgg (maxBin img5) 0 0 (histAt img5 maskAll offsH (y : Int) x)
            (img5.pix (y : Int) (x : Int))
        else 0) 2 0 = img5.pix ((2 : Nat) : Int) ((0 : Nat) : Int) :=
  ⟨by rfl, by rw [bilateral_mean, applyEngine_ok _ img5 fpH _ maskAll 0 0 offsH (by rfl)],
   by decide, by decide,
   bilateral_mean_zero_population_identity img5 fpH (fun _ _ => 0) maskAll 0 0 0 0
     offsH _ 2 0 (by rfl)
     (by rw [bilateral_mean, applyEngine_ok _ img5 fpH _ maskAll 0 0 offsH (by rfl)])
     (by decide) (by decide)⟩

/-- C4: when the shifted structuring-element center falls outside
[0,Fh)×[0,Fw), the call fails with `InvalidShift` before any pixel is
processed: no output function is produced, so the output buffer is not
modified. -/
theorem invalid_shift_rejected
    (img : Image) (fp : Footprint) (out0 : Nat → Nat → Nat) (mask : Mask)
    (shiftX shiftY : Int) (s0 s1 : Nat)
    (hshift : ¬ (0 ≤ (fp.Fh : Int) / 2 + shiftY ∧
        (fp.Fh : Int) / 2 + shiftY < (fp.Fh : Int) ∧
        0 ≤ (fp.Fw : Int) / 2 + shiftX ∧
        (fp.Fw : Int) / 2 + shiftX < (fp.Fw : Int))) :
    bilateral_mean img fp out0 mask shiftX shiftY s0 s1
        = Except.error FilterError.invalidShift ∧
    bilateral_pop img fp out0 mask shiftX shiftY s0 s1
        = Except.error FilterError.invalidShift := by
  have hres : resolveOffsets fp shiftX shiftY
      = Except.error FilterError.invalidShift := by
    simp only [resolveOffsets]
    rw [if_neg hshift]
  constructor
  · rw [bilateral_mean, applyEngine, hres]
    rfl
  · rw [bilateral_pop, applyEngine, hres]
    rfl

theorem invalid_shift_rejected_witness :
    bilateral_mean img5 fp3 (fun _ _ => 0) maskAll 5 0 10 10
        = Except.error FilterError.invalidShift ∧
    bilateral_pop img5 fp3 (fun _ _ => 0) maskAll 5 0 10 10
        = Except.error FilterError.invalidShift :=
  invalid_shift_rejected img5 fp3 (fun _ _ => 0) maskAll 5 0 10 10 (by decide)

/-- C5: at every pixel whose mask is false at the center, both
`bilateral_mean` and `bilateral_pop` leave the output entry untouched (the
pixel is skipped entirely); entries are written only at active positions. -/
theorem mask_false_center_untouched
    (img : Image) (fp : Footprint) (out0 : Nat → Nat → Nat) (mask : Mask)
    (shiftX shiftY : Int) (s0 s1 : Nat)
    (fm fpp : Nat → Nat → Nat) (y x : Nat)
    (hm : bilateral_mean img fp out0 mask shiftX shiftY s0 s1 = Except.ok fm)
    (hp : bilateral_pop img fp out0 mask shiftX shiftY s0 s1 = Except.ok fpp)
    (hmask : mask (y : Int) (x : Int) = false) :
    fm y x = out0 y x ∧ fpp y x = out0 y x := by
  rw [bilateral_mean] at hm
  rw [bilateral_pop] at hp
  obtain ⟨offs, hres⟩ := applyEngine_ok_resolve hm
  have hact : ¬ activeAt img mask y x = true := by
    simp [activeAt, hmask]
  constructor
  · rw [applyEngine_pixel y x hres hm, if_neg hact]
  · rw [applyEngine_pixel y x hres hp, if_neg hact]

theorem mask_false_center_untouched_witness :
    bilateral_mean img5 fp3 (fun _ _ => 7) (fun y x => decide (y + x ≠ 0)) 0 0 10 10
        = Except.ok (fun y x =>
            if activeAt img5 (fun y x => decide (y + x ≠ 0)) y x then
              meanAgg (maxBin img5) 10 10
                (histAt img5 (fun y x => decide (y + x ≠ 0)) offs3 (y : Int) x)
                (img5.pix (y : Int) (x : Int))
            else 7) ∧
    bilateral_pop img5 fp3 (fun _ _ => 7) (fun y x => decide (y + x ≠ 0)) 0 0 10 10
        = Except.ok (fun y x =>
            if activeAt img5 (fun y x => decide (y + x ≠ 0)) y x then
              popAgg (maxBin img5) 10 10
                (histAt img5 (fun y x => decide (y + x ≠ 0)) offs3 (y : Int) x)
                (img5.pix (y : Int) (x : Int))
            else 7) ∧
    (fun y x => decide ((y : Int) + (x : Int) ≠ 0)) ((0 : Nat) : Int) ((0 : Nat) : Int) = false ∧
    ((fun y x =>
        if activeAt img5 (fun y x => decide (y + x ≠ 0)) y x then
          meanAgg (maxBin img5) 10 10
            (histAt img5 (fun y x => decide (y + x ≠ 0)) offs3 (y : Int) x)
            (img5.pix (y : Int) (x : Int))
        else 7) 0 0 = 7 ∧
     (fun y x =>
        if activeAt img5 (fun y x => decide (y + x ≠ 0)) y x then
          popAgg (maxBin img5) 10 10
            (histAt img5 (fun y x => decide (y + x ≠ 0)) offs3 (y : Int) x)
            (img5.pix (y : Int) (x : Int))
        else 7) 0 0 = 7) :=
  ⟨by rw [bilateral_mean, applyEngine_ok _ img5 fp3 _ _ 0 0 offs3 (by rfl)],
   by rw [bilateral_pop, applyEngine_ok _ img5 fp3 _ _ 0 0 offs3 (by rfl)],
   by decide,
   mask_false_center_untouched img5 fp3 (fun _ _ => 7)
     (fun y x => decide (y + x ≠ 0)) 0 0 10 10 _ _ 0 0
     (by rw [bilateral_mean, applyEngine_ok _ img5 fp3 _ _ 0 0 offs3 (by rfl)])
     (by rw [bilateral_pop, applyEngine_ok _ img5 fp3 _ _ 0 0 offs3 (by rfl)])
     (by decide)⟩

lemma validNbr_false_of_oob (img : Image) (mask : Mask) (y x : Int)
    (h : y < 0 ∨ (img.H : Int) ≤ y ∨ x < 0 ∨ (img.W : Int) ≤ x) :
    ¬ validNbr img mask y x = true := by
  simp only [validNbr, Bool.and_eq_true, decide_eq_true_eq]
  intro hc
  obtain ⟨⟨⟨⟨h1, h2⟩, h3⟩, h4⟩, _⟩ := hc
  rcases h with h | h | h | h <;> omega

lemma bruteHist_middle_invalid (img : Image) (mask : Mask)
    (pre post : List (Int × Int)) (o : Int × Int) (y x : Int)
    (hv : ¬ validNbr img mask (y + o.1) (x + o.2) = true) :
    bruteHist img mask (pre ++ o :: post) y x
      = bruteHist img mask (pre ++ post) y x := by
  simp [bruteHist, List.filter_append, List.filter_cons, hv]

/-- C6: a neighbour coordinate outside the image bounds contributes nothing to
the engine's histogram — dropping the offset leaves the histogram unchanged,
so the neighbour is treated as absent, never as a pixel of zero intensity. -/
theorem out_of_bounds_neighbor_absent
    (img : Image) (mask : Mask) (pre post : List (Int × Int)) (dr dc : Int)
    (y : Int) (x : Nat)
    (hoob : y + dr < 0 ∨ (img.H : Int) ≤ y + dr ∨
        (x : Int) + dc < 0 ∨ (img.W : Int) ≤ (x : Int) + dc) :
    histAt img mask (pre ++ (dr, dc) :: post) y x
      = histAt img mask (pre ++ post) y x := by
  rw [histAt_eq_bruteHist, histAt_eq_bruteHist]
  exact bruteHist_middle_invalid img mask pre post (dr, dc) y (x : Int)
    (validNbr_false_of_oob img mask _ _ hoob)

theorem out_of_bounds_neighbor_absent_witness :
    histAt img5 maskAll ([(0, -1)] ++ ((0, -9) : Int × Int) :: [(0, 1)]) 2 0
      = histAt img5 maskAll ([(0, -1)] ++ [(0, 1)]) 2 0 :=
  out_of_bounds_neighbor_absent img5 maskAll [(0, -1)] [(0, 1)] 0 (-9) 2 0
    (by decide)

lemma inInterval_mono {mb g s0 s1 s0' s1' v : Nat}
    (h0 : s0 ≤ s0') (h1 : s1 ≤ s1')
    (h : inInterval mb g s0 s1 v = true) : inInterval mb g s0' s1' v = true := by
  simp only [inInterval, Bool.and_eq_true, decide_eq_true_eq,
    intervalLo, intervalHi] at h ⊢
  refine ⟨by omega, le_trans h.2 (min_le_min (le_refl _) (by omega))⟩

lemma popAgg_mono (mb : Nat) (h : Multiset Nat) (g : Nat) {s0 s1 s0' s1' : Nat}
    (h0 : s0 ≤ s0') (h1 : s1 ≤ s1') :
    popAgg mb s0 s1 h g ≤ popAgg mb s0' s1' h g :=
  Multiset.card_le_card
    (Multiset.monotone_filter_right h fun _ hv => inInterval_mono h0 h1 hv)

/-- C7: for fixed image, footprint and mask, the `bilateral_pop` value at
every active pixel is monotonically non-decreasing as `s0` or `s1`
increases. -/
theorem bilateral_pop_monotone
    (img : Image) (fp : Footprint) (out0 : Nat → Nat → Nat) (mask : Mask)
    (shiftX shiftY : Int) (s0 s1 s0' s1' : Nat)
    (f f' : Nat → Nat → Nat) (y x : Nat)
    (hs0 : s0 ≤ s0') (hs1 : s1 ≤ s1')
    (hf : bilateral_pop img fp out0 mask shiftX shiftY s0 s1 = Except.ok f)
    (hf' : bilateral_pop img fp out0 mask shiftX shiftY s0' s1' = Except.ok f')
    (hact : activeAt img mask y x = true) :
    f y x ≤ f' y x := by
  rw [bilateral_pop] at hf hf'
  obtain ⟨offs, hres⟩ := applyEngine_ok_resolve hf
  rw [applyEngine_pixel y x hres hf, applyEngine_pixel y x hres hf',
    if_pos hact, if_pos hact]
  exact popAgg_mono _ _ _ hs0 hs1

theorem bilateral_pop_monotone_witness :
    (fun y x =>
        if activeAt img5 maskAll y x then
          popAgg (maxBin img5) 0 0 (histAt img5 maskAll offs3 (y : Int) x)
            (img5.pix (y : Int) (x : Int))
        else (0 : Nat)) 0 0
      ≤ (fun y x =>
          if activeAt img5 maskAll y x then
            popAgg (maxBin img5) 10 10 (histAt img5 maskAll offs3 (y : Int) x)
              (img5.pix (y : Int) (x : Int))
          else (0 : Nat)) 0 0 :=
  bilateral_pop_monotone img5 fp3 (fun _ _ => 0) maskAll 0 0 0 0 10 10 _ _ 0 0
    (by decide) (by decide)
    (by rw [bilateral_pop, applyEngine_ok _ img5 fp3 _ maskAll 0 0 offs3 (by rfl)])
    (by rw [bilateral_pop, applyEngine_ok _ img5 fp3 _ maskAll 0 0 offs3 (by rfl)])
    (by decide)

/-- The 1×1 all-true footprint, whose only offset is (0,0). -/
def fp1 : Footprint := ⟨1, 1, fun _ _ => true⟩

/-- The offsets of `fp1` with no shift. -/
def offs1 : List (Int × Int) := [(0, 0)]

lemma bruteHist_self (img : Image) (mask : Mask) (y x : Nat)
    (hy : y < img.H) (hx : x < img.W)
    (hmask : mask (y : Int) (x : Int) = true) :
    bruteHist img mask offs1 (y : Int) (x : Int)
      = {img.pix (y : Int) (x : Int)} := by
  have hv : validNbr img mask (y : Int) (x : Int) = true := by
    simp only [validNbr, Bool.and_eq_true, decide_eq_true_eq]
    refine ⟨⟨⟨⟨?_, ?_⟩, ?_⟩, ?_⟩, hmask⟩ <;> omega
  simp [offs1, bruteHist, List.filter_cons, hv]

/-- C8: with `s0 = s1 = 0` and the single-cell footprint whose only offset is
(0,0), at every in-bounds pixel with a valid intensity the only qualifying
neighbour is the pixel itself: `bilateral_mean` returns the center's own
intensity and `bilateral_pop` returns 1, or 0 (on a fresh zero buffer) at
pixels excluded by the mask. -/
theorem degenerate_interval_identity
    (img : Image) (out0 : Nat → Nat → Nat) (mask : Mask)
    (fm fpp : Nat → Nat → Nat) (y x : Nat)
    (hy : y < img.H) (hx : x < img.W)
    (hg : img.pix (y : Int) (x : Int) < maxBin img)
    (hm : bilateral_mean img fp1 out0 mask 0 0 0 0 = Except.ok fm)
    (hp : bilateral_pop img fp1 (fun _ _ => 0) mask 0 0 0 0 = Except.ok fpp) :
    (mask (y : Int) (x : Int) = true →
        fm y x = img.pix (y : Int) (x : Int) ∧ fpp y x = 1) ∧
    (mask (y : Int) (x : Int) = false → fpp y x = 0) := by
  have hres : resolveOffsets fp1 0 0 = Except.ok offs1 := by rfl
  rw [bilateral_mean] at hm
  rw [bilateral_pop] at hp
  constructor
  · intro hmask
    have hact : activeAt img mask y x = true := by
      simp [activeAt, hy, hx, hmask]
    have hpg : inInterval (maxBin img) (img.pix (y : Int) (x : Int)) 0 0
        (img.pix (y : Int) (x : Int)) = true := by
      simp only [inInterval, Bool.and_eq_true, decide_eq_true_eq,
        intervalLo, intervalHi]
      refine ⟨Nat.sub_le _ 0, le_min (by omega) (by omega)⟩
    have hhist := bruteHist_self img mask y x hy hx hmask
    constructor
    · rw [applyEngine_pixel y x hres hm, if_pos hact, histAt_eq_bruteHist,
        hhist]
      simp [meanAgg, Multiset.filter_singleton, hpg]
    · rw [applyEngine_pixel y x hres hp, if_pos hact, histAt_eq_bruteHist,
        hhist]
      simp [popAgg, Multiset.filter_singleton, hpg]
  · intro hmask
    have hact : ¬ activeAt img mask y x = true := by
      simp [activeAt, hmask]
    rw [applyEngine_pixel y x hres hp, if_neg hact]

theorem degenerate_interval_identity_witness :
    ((2 : Nat) < img5.H ∧ (2 : Nat) < img5.W ∧
      img5.pix ((2 : Nat) : Int) ((2 : Nat) : Int) < maxBin img5) ∧
    ((maskAll ((2 : Nat) : Int) ((2 : Nat) : Int) = true →
        (fun y x =>
            if activeAt img5 maskAll y x then
              meanAgg (maxBin img5) 0 0 (histAt img5 maskAll offs1 (y : Int) x)
                (img5.pix (y : Int) (x : Int))
            else 9) 2 2 = img5.pix ((2 : Nat) : Int) ((2 : Nat) : Int) ∧
        (fun y x =>
            if activeAt img5 maskAll y x then
              popAgg (maxBin img5) 0 0 (histAt img5 maskAll offs1 (y : Int) x)
                (img5.pix (y : Int) (x : Int))
            else 0) 2 2 = 1) ∧
      (maskAll ((2 : Nat) : Int) ((2 : Nat) : Int) = false →
        (fun y x =>
            if activeAt img5 maskAll y x then
              popAgg (maxBin img5) 0 0 (histAt img5 maskAll offs1 (y : Int) x)
                (img5.pix (y : Int) (x : Int))
            else 0) 2 2 = 0)) :=
  ⟨by decide,
   degenerate_interval_identity img5 (fun _ _ => 9) maskAll _ _ 2 2
     (by decide) (by decide) (by decide)
     (by rw [bilateral_mean, applyEngine_ok _ img5 fp1 _ maskAll 0 0 offs1 (by rfl)])
     (by rw [bilateral_pop, applyEngine_ok _ img5 fp1 _ maskAll 0 0 offs1 (by rfl)])⟩

/-- C9: calling with the optional arguments omitted (the source defaults
`shift_x=False, shift_y=False, s0=10, s1=10`, with Python's boolean-integer
coercion) behaves exactly as calling with `shift_x=0, shift_y=0, s0=10,
s1=10`, for both operations. -/
theorem omitted_defaults_eq_explicit :
    ∀ (img : Image) (fp : Footprint) (out0 : Nat → Nat → Nat) (mask : Mask),
      bilateral_mean_defaults img fp out0 mask
          = bilateral_mean img fp out0 mask 0 0 10 10 ∧
      bilateral_pop_defaults img fp out0 mask
          = bilateral_pop img fp out0 mask 0 0 10 10 :=
  fun _ _ _ _ => ⟨rfl, rfl⟩

/-- C10: `bilateral_mean` and `bilateral_pop` share the identical validation
step — one raises an error on an input if and only if the other raises the
same error — and both are the same `_apply` pipeline instantiated with
different per-pixel aggregators. -/
theorem mean_pop_same_validation
    (img : Image) (fp : Footprint) (out0 : Nat → Nat → Nat) (mask : Mask)
    (shiftX shiftY : Int) (s0 s1 : Nat) :
    (∀ e : FilterError,
        bilateral_mean img fp out0 mask shiftX shiftY s0 s1 = Except.error e ↔
        bilateral_pop img fp out0 mask shiftX shiftY s0 s1 = Except.error e) ∧
    bilateral_mean img fp out0 mask shiftX shiftY s0 s1
        = applyEngine (meanAgg (maxBin img) s0 s1) img fp out0 mask shiftX shiftY ∧
    bilateral_pop img fp out0 mask shiftX shiftY s0 s1
        = applyEngine (popAgg (maxBin img) s0 s1) img fp out0 mask shiftX shiftY := by
  refine ⟨fun e => ?_, rfl, rfl⟩
  rw [bilateral_mean, bilateral_pop, applyEngine, applyEngine,
    except_map_error, except_map_error]

end Bilateral
